import Mathlib

/-!
Verification development for a static blog generator (three observed variants of
one build script: a gray-matter based loader `src/build.js`, a hand-rolled
front-matter loader, and an mtime-only loader).

Strings are modelled as `List Char` (JavaScript strings, one `Char` per UTF-16
unit; no astral characters occur in any input considered here).  External
collaborators (the JS `Date` string parser, the markdown renderer, the
template engine) are modelled as oracle parameters.
-/

namespace StaticBlog

/-- JavaScript whitespace class used by the regex `\s` and by `String.prototype.trim`:
space, tab, LF, VT, FF, CR, NBSP, and the Unicode space separators used by ECMA-262. -/
def jsWs (c : Char) : Bool :=
  c = ' ' || c = '\t' || c = '\n' || c = '\x0b' || c = '\x0c' || c = '\r' ||
  c = '\u00A0' || c = '\u1680' || ('\u2000' ≤ c && c ≤ '\u200A') ||
  c = '\u2028' || c = '\u2029' || c = '\u202F' || c = '\u205F' || c = '\u3000' ||
  c = '\uFEFF'

/-- Length of the maximal whitespace prefix (the greedy extent of `\s*`). -/
def wsRun : List Char → Nat
  | [] => 0
  | c :: rest => if jsWs c then wsRun rest + 1 else 0

/-- JavaScript `String.prototype.trim`: strip `jsWs` from both ends. -/
def jsTrim (l : List Char) : List Char :=
  ((l.dropWhile jsWs).reverse.dropWhile jsWs).reverse

/-- JavaScript `str.split(/\r?\n/)`: split on LF, absorbing an immediately
preceding CR into the separator.  A lone CR is not a separator. -/
def splitLines : List Char → List (List Char)
  | [] => [[]]
  | '\r' :: '\n' :: rest => [] :: splitLines rest
  | '\n' :: rest => [] :: splitLines rest
  | c :: rest =>
    match splitLines rest with
    | l :: ls => (c :: l) :: ls
    | [] => [[c]]

/-- JavaScript `str.indexOf(c)`: index of the first occurrence, `none` for `-1`. -/
def idxOf (target : Char) : List Char → Option Nat
  | [] => none
  | c :: rest => if c = target then some 0 else (idxOf target rest).map (· + 1)

/-- JavaScript object assignment `obj[k] = v` on an insertion-ordered object:
overwrite in place if the key exists, else append. -/
def upsert {α β : Type} [DecidableEq α] (k : α) (v : β) : List (α × β) → List (α × β)
  | [] => [(k, v)]
  | (k', v') :: rest => if k' = k then (k, v) :: rest else (k', v') :: upsert k v rest

/-- JavaScript property read `obj[k]`: first (hence, by the `upsert` invariant,
only) binding of the key; `none` models `undefined`. -/
def jsLookup {α β : Type} [DecidableEq α] (k : α) : List (α × β) → Option β
  | [] => none
  | (k', v) :: rest => if k' = k then some v else jsLookup k rest

/-- Metadata mapping produced by the hand-rolled front-matter parser. -/
abbrev FMap : Type := List (List Char × List Char)

/-- Does the regex fragment `\r?\n---` match at the head of the list?  Returns the
length of the `\r?\n` part (`\r?` is greedy, so CRLF is preferred).  This is the
closing-delimiter search step of `^---\s*\r?\n([\s\S]*?)\r?\n---\s*\r?\n?`. -/
def startsClose (l : List Char) : Option Nat :=
  if l.take 5 = ['\r', '\n', '-', '-', '-'] then some 2
  else if l.take 4 = ['\n', '-', '-', '-'] then some 1
  else none

/-- Earliest position at which `\r?\n---` matches (the lazy `([\s\S]*?)` stops at
the first possible closing delimiter).  Returns the offset together with the
length of the matched `\r?\n`. -/
def findClose : List Char → Option (Nat × Nat)
  | [] => none
  | c :: rest =>
    match startsClose (c :: rest) with
    | some nl => some (0, nl)
    | none => (findClose rest).map (fun p => (p.1 + 1, p.2))

/-- Given the text after `---` (namely `rest0`) and the chosen length `aLen` of the
opening `\s*\r?\n`, finish the match: find the earliest closing `\r?\n---`, then
let the trailing `\s*\r?\n?` greedily absorb the whitespace run after the closing
dashes.  Returns the captured group and the total match length. -/
def fmFinish (rest0 : List Char) (aLen : Nat) : Option (List Char × Nat) :=
  match findClose (rest0.drop aLen) with
  | none => none
  | some (i, nl) =>
    some ((rest0.drop aLen).take i,
      3 + aLen + i + nl + 3 + wsRun ((rest0.drop aLen).drop (i + nl + 3)))

/-- Try the opening `\s*\r?\n` with the `\s*` part of length exactly `p`:
the next characters must be CRLF (preferred, `\r?` greedy) or LF. -/
def fmTryAt (rest0 : List Char) (p : Nat) : Option (List Char × Nat) :=
  if (rest0.drop p).take 2 = ['\r', '\n'] then fmFinish rest0 (p + 2)
  else if (rest0.drop p).take 1 = ['\n'] then fmFinish rest0 (p + 1)
  else none

/-- Backtracking over the greedy `\s*` of the opening delimiter: try the longest
whitespace prefix first and shrink on failure, as the regex engine does. -/
def fmOpen (rest0 : List Char) : Nat → Option (List Char × Nat)
  | 0 => fmTryAt rest0 0
  | p + 1 =>
    match fmTryAt rest0 (p + 1) with
    | some r => some r
    | none => fmOpen rest0 p

/-- `content.match(/^---\s*\r?\n([\s\S]*?)\r?\n---\s*\r?\n?/)`: `none` when the
regex does not match; otherwise the captured group `match[1]` and `match[0].length`. -/
def fmMatch (s : List Char) : Option (List Char × Nat) :=
  if s.take 3 = ['-', '-', '-'] then fmOpen (s.drop 3) (wsRun (s.drop 3))
  else none

/-- One iteration of the front-matter line loop: trim the line; skip it when blank,
when it starts with `#`, when it has no colon, or when the trimmed key is empty;
otherwise split at the first colon, trim both sides, and store. -/
def fmLine (data : FMap) (line : List Char) : FMap :=
  if (jsTrim line).isEmpty then data
  else if (jsTrim line).head? = some '#' then data
  else
    match idxOf ':' (jsTrim line) with
    | none => data
    | some i =>
      if (jsTrim ((jsTrim line).take i)).isEmpty then data
      else
        upsert (jsTrim ((jsTrim line).take i)) (jsTrim ((jsTrim line).drop (i + 1)))
          data

/-- The metadata object built from the captured front-matter block. -/
def fmData (block : List Char) : FMap :=
  (splitLines block).foldl fmLine []

/-- `parseFrontmatter(content)` from the hand-rolled loader: on a regex match,
parse the captured block into a mapping and drop `match[0].length` characters of
the input to obtain the body; otherwise empty metadata and the input unchanged. -/
def parseFrontmatter (content : List Char) : FMap × List Char :=
  match fmMatch content with
  | none => ([], content)
  | some (block, len) => (fmData block, content.drop len)

/-- `parseFrontmatterDate(value)` from the hand-rolled loader: `null` for a falsy
(empty) string, else `new Date(value)`, with an Invalid Date (`NaN` time value)
mapped to `null`.  `jsDate` is the external `new Date(string)` parser, returning
`none` for Invalid Date. -/
def parseFrontmatterDate (jsDate : List Char → Option Int) (value : List Char) :
    Option Int :=
  if value.isEmpty then none else jsDate value

/-- `file.replace(".md", "")`: JavaScript `String.prototype.replace` with a plain
string pattern removes only the FIRST occurrence of `.md`; a file with no
occurrence is returned unchanged. -/
def replaceFirstMd (l : List Char) : List Char :=
  match l with
  | [] => []
  | c :: rest => if l.take 3 = ['.', 'm', 'd'] then l.drop 3 else c :: replaceFirstMd rest

/-- The `created`/`updated` text read in the hand-rolled loader:
`frontmatter.data.created || ""` (an absent key, `undefined`, is falsy). -/
def fmFieldText (data : FMap) (key : List Char) : List Char :=
  (jsLookup key data).getD []

/-- The canonical timestamp of the hand-rolled loader:
`parseFrontmatterDate(frontmatter.data.created || "")`.  Note that no filesystem
timestamp enters this computation. -/
def resolveCreated (jsDate : List Char → Option Int) (data : FMap) : Option Int :=
  parseFrontmatterDate jsDate (fmFieldText data (String.toList "created"))

/-- Modelled from the spec (for comparison with the code): the claimed date
resolver policy — prefer an explicit metadata field parsed as a date; if absent
or unparseable fall back to the supplied filesystem modification timestamp; only
if that too is unavailable return null. -/
def resolveDateClaim (jsDate : List Char → Option Int) (data : FMap)
    (mtime : Option Int) : Option Int :=
  match (jsLookup (String.toList "created") data).bind
      (fun v => if v.isEmpty then none else jsDate v) with
  | some t => some t
  | none => mtime

/-- A sample `new Date(string)` oracle used only in witnesses and
counterexamples; it parses exactly the strings appearing there. -/
def demoJsDate (s : List Char) : Option Int :=
  if s = String.toList "2024-06-01" then some 1717200000000
  else if s = String.toList "2023-01-01" then some 1672531200000
  else none

/-! ## Pagination (`generateIndex`, identical in all three variants) -/

/-- `generateIndex`: `totalPages = Math.max(1, Math.ceil(posts.length / pageSize))`;
page `k` (1-indexed) is `posts.slice((k-1)*pageSize, (k-1)*pageSize + pageSize)`.
The reference code fixes `pageSize = POSTS_PER_PAGE = 10`; the page size is the
configuration parameter the spec names. -/
def paginate {α : Type} (posts : List α) (pageSize : Nat) : List (List α) :=
  (List.range (max 1 ((posts.length + pageSize - 1) / pageSize))).map
    (fun i => (posts.drop (i * pageSize)).take pageSize)

/-! ## Post sequencing (`getPosts` tail: sort + prev/next threading) -/

/-- A post as far as the sequencer is concerned: an identifier and the canonical
timestamp (`none` models a `null` `createdAt`). -/
structure SPost where
  slug : String
  createdAt : Option Int
deriving DecidableEq

/-- The numeric sort key of the comparator
`(b, a) => (b.createdAt ? b.createdAt.getTime() : 0) - (a.createdAt ? a.createdAt.getTime() : 0)`:
a `null` timestamp contributes epoch zero. -/
def sortKey (p : SPost) : Int :=
  match p.createdAt with
  | some t => t
  | none => 0

/-- The order produced by `posts.sort(comparator)`: `a` may stay before `b`
exactly when the comparator is nonpositive, i.e. `sortKey b ≤ sortKey a`. -/
def postLE (a b : SPost) : Prop :=
  sortKey b ≤ sortKey a

instance : DecidableRel postLE :=
  fun a b => inferInstanceAs (Decidable (sortKey b ≤ sortKey a))

instance : IsTotal SPost postLE :=
  ⟨fun a b => Int.le_total (sortKey b) (sortKey a)⟩

instance : IsTrans SPost postLE :=
  ⟨fun _ _ _ h h' => le_trans h' h⟩

/-- `posts.sort(comparator)`: ECMAScript `Array.prototype.sort` is stable, so with
the consistent comparator above the result is the unique stable descending-key
permutation; insertion sort with `postLE` computes exactly that list. -/
def sortPosts (l : List SPost) : List SPost :=
  List.insertionSort postLE l

/-- A post after the prev/next threading loop: the sorted neighbors are kept as
non-owning copies of the neighboring records. -/
structure LinkedPost where
  post : SPost
  prev : Option SPost
  next : Option SPost
deriving DecidableEq

/-- The loop `posts.forEach((post, i) => { post.prev = posts[i+1] || null;
post.next = posts[i-1] || null })` applied to a sorted list. -/
def linkPosts (l : List SPost) : List LinkedPost :=
  l.enum.map (fun p => ⟨p.2, l[p.1 + 1]?, if p.1 = 0 then none else l[p.1 - 1]?⟩)

/-- The sequencing stage of `getPosts`: sort descending by canonical timestamp,
then thread prev/next links. -/
def sequencePosts (posts : List SPost) : List LinkedPost :=
  linkPosts (sortPosts posts)

/-! ## Post records -/

/-- A JavaScript value stored in a post record: a string, a `Date` (`none` is an
Invalid Date), a number, or `null`. -/
inductive JVal where
  | vStr : List Char → JVal
  | vDate : Option Int → JVal
  | vNum : Int → JVal
  | vNull : JVal
deriving DecidableEq

/-- JavaScript truthiness of a `JVal`: empty string, `0` and `null` are falsy;
every `Date` object (even an Invalid one) is truthy. -/
def jsTruthy : JVal → Bool
  | JVal.vStr s => !s.isEmpty
  | JVal.vDate _ => true
  | JVal.vNum n => n ≠ 0
  | JVal.vNull => false

/-- `new Date(x)` on a non-string value already held in metadata: a `Date` is
copied, a number is an epoch offset, strings go through the external parser. -/
def jsNewDate (jsDate : List Char → Option Int) : JVal → Option Int
  | JVal.vStr s => jsDate s
  | JVal.vDate t => t
  | JVal.vNum n => some n
  | JVal.vNull => some 0

/-- Object records keyed by property name. -/
abbrev JObj : Type := List (List Char × JVal)

/-- JavaScript object spread `{ ...base, ...extra }` restricted to the part the
loader uses: every property of `extra` is assigned over `base` in order. -/
def spreadObj {α β : Type} [DecidableEq α] (base extra : List (α × β)) :
    List (α × β) :=
  extra.foldl (fun acc kv => upsert kv.1 kv.2 acc) base

/-- The gray-matter variant's post record (`src/build.js` `getPosts`): the five
derived fields are listed first and then `...data` is spread over them.  The
gray-matter call itself is the external collaborator producing `data` and
`body`; `render` is `marked.parse`, `fmtDate` is `formatDate`, `now` is the
`new Date()` fallback taken when `data.date` is falsy. -/
def buildPost (jsDate : List Char → Option Int) (fmtDate : Option Int → List Char)
    (render : List Char → List Char) (now : Int) (file : List Char)
    (data : JObj) (body : List Char) : JObj :=
  let date : Option Int :=
    match jsLookup (String.toList "date") data with
    | some v => if jsTruthy v then jsNewDate jsDate v else some now
    | none => some now
  spreadObj
    [(String.toList "slug", JVal.vStr (replaceFirstMd file)),
     (String.toList "title",
       match jsLookup (String.toList "title") data with
       | some v => if jsTruthy v then v else JVal.vStr (replaceFirstMd file)
       | none => JVal.vStr (replaceFirstMd file)),
     (String.toList "date", JVal.vDate date),
     (String.toList "dateFormatted", JVal.vStr (fmtDate date)),
     (String.toList "html", JVal.vStr (render body))]
    data

/-- The hand-rolled variant's post record. -/
structure P000Post where
  slug : List Char
  title : List Char
  createdAt : Option Int
  updatedAt : Option Int
  createdAtFormatted : List Char
  updatedAtFormatted : List Char
  html : List Char
deriving DecidableEq

/-- The hand-rolled loader's per-file record: parse the front matter, read the
`created`/`updated` texts, use the file name with the first `.md` removed as
both slug and title, resolve the dates, and render the stripped body. -/
def p000Post (jsDate : List Char → Option Int) (render : List Char → List Char)
    (file content : List Char) : P000Post :=
  let fm := parseFrontmatter content
  let createdText := fmFieldText fm.1 (String.toList "created")
  let updatedText := fmFieldText fm.1 (String.toList "updated")
  ⟨replaceFirstMd file, replaceFirstMd file,
    parseFrontmatterDate jsDate createdText,
    parseFrontmatterDate jsDate updatedText,
    createdText, updatedText, render fm.2⟩

/-! ## Helper lemmas -/

/-- Does `.md` occur anywhere in the list? -/
def hasMd : List Char → Bool
  | [] => false
  | c :: rest => if (c :: rest).take 3 = ['.', 'm', 'd'] then true else hasMd rest

lemma replaceFirstMd_cons (c : Char) (rest : List Char) :
    replaceFirstMd (c :: rest) =
      if (c :: rest).take 3 = ['.', 'm', 'd'] then (c :: rest).drop 3
      else c :: replaceFirstMd rest := by
  rw [replaceFirstMd]

lemma hasMd_cons (c : Char) (rest : List Char) :
    hasMd (c :: rest) =
      if (c :: rest).take 3 = ['.', 'm', 'd'] then true else hasMd rest := by
  rw [hasMd]

lemma replaceFirstMd_append_md (stem : List Char) (h : hasMd stem = false) :
    replaceFirstMd (stem ++ ['.', 'm', 'd']) = stem := by
  induction stem with
  | nil => decide
  | cons c rest ih =>
    rw [hasMd_cons] at h
    split at h
    · exact absurd h (by simp)
    · rw [List.cons_append, replaceFirstMd_cons, if_neg ?hneg]
      · rw [ih h]
      case hneg =>
        match rest with
        | [] => simp
        | [c2] => simp
        | c2 :: c3 :: r =>
          intro hc
          apply ‹¬(c :: c2 :: c3 :: r).take 3 = ['.', 'm', 'd']›
          simpa using hc

lemma jsLookup_upsert_self {α β : Type} [DecidableEq α] (k : α) (v : β)
    (d : List (α × β)) : jsLookup k (upsert k v d) = some v := by
  induction d with
  | nil => simp [upsert, jsLookup]
  | cons kv rest ih =>
    obtain ⟨k', v'⟩ := kv
    by_cases h : k' = k
    · subst h
      simp [upsert, jsLookup]
    · simp [upsert, jsLookup, h, ih]

lemma jsLookup_upsert_ne {α β : Type} [DecidableEq α] {k k' : α} (hne : k' ≠ k)
    (v : β) (d : List (α × β)) : jsLookup k (upsert k' v d) = jsLookup k d := by
  induction d with
  | nil => simp [upsert, jsLookup, hne]
  | cons kv rest ih =>
    obtain ⟨a, b⟩ := kv
    by_cases h : a = k' <;> by_cases hak : a = k <;>
      simp_all [upsert, jsLookup, hne, h, hak, ih]

lemma jsLookup_eq_none_of_not_mem {α β : Type} [DecidableEq α] {k : α}
    {d : List (α × β)} (h : k ∉ d.map Prod.fst) : jsLookup k d = none := by
  induction d with
  | nil => rfl
  | cons kv rest ih =>
    obtain ⟨a, b⟩ := kv
    simp only [List.map_cons, List.mem_cons, not_or] at h
    simp [jsLookup, Ne.symm h.1, ih h.2]

lemma jsLookup_spread {α β : Type} [DecidableEq α] (extra : List (α × β))
    (base : List (α × β)) (k : α) (hnd : (extra.map Prod.fst).Nodup) :
    jsLookup k (spreadObj base extra) =
      match jsLookup k extra with
      | some v => some v
      | none => jsLookup k base := by
  induction extra generalizing base with
  | nil => simp [spreadObj, jsLookup]
  | cons kv rest ih =>
    obtain ⟨k', v'⟩ := kv
    simp only [List.map_cons, List.nodup_cons] at hnd
    have hstep : spreadObj base ((k', v') :: rest) = spreadObj (upsert k' v' base) rest := by
      simp [spreadObj]
    rw [hstep, ih (upsert k' v' base) hnd.2]
    by_cases h : k' = k
    · subst h
      rw [jsLookup_eq_none_of_not_mem hnd.1]
      simp [jsLookup, jsLookup_upsert_self]
    · have : jsLookup k ((k', v') :: rest) = jsLookup k rest := by simp [jsLookup, h]
      rw [this]
      cases hr : jsLookup k rest with
      | none => simp [jsLookup_upsert_ne h]
      | some w => rfl

/-! ## Claim theorems -/

/-- Claim C1: for every list of posts and every page size at least 1, pagination
produces `max 1 (ceil (length / pageSize))` pages; the 1-indexed page `k` holds
exactly the posts at offsets `(k-1)*pageSize` through `min length (k*pageSize) - 1`;
in particular 25 posts at page size 10 give pages of sizes 10, 10, 5, an empty
post list gives one empty page, and exactly 10 posts give exactly one full page. -/
theorem claim1_pagination :
    (∀ (α : Type) (posts : List α) (ps : Nat), 1 ≤ ps →
      (paginate posts ps).length = max 1 ((posts.length + ps - 1) / ps) ∧
      (∀ k, 1 ≤ k → k ≤ (paginate posts ps).length →
        ∃ page, (paginate posts ps)[k - 1]? = some page ∧
          page.length = min posts.length (k * ps) - (k - 1) * ps ∧
          (∀ j, j < page.length → page[j]? = posts[(k - 1) * ps + j]?))) ∧
    (paginate (List.range 25) 10).map List.length = [10, 10, 5] ∧
    paginate ([] : List Nat) 10 = [[]] ∧
    (paginate (List.range 10) 10).map List.length = [10] := by
  refine ⟨?_, by decide, by decide, by decide⟩
  intro α posts ps _
  constructor
  · simp [paginate]
  · intro k hk1 hk2
    obtain ⟨k, rfl⟩ : ∃ k', k = k' + 1 := ⟨k - 1, by omega⟩
    have hlen : (paginate posts ps).length =
        max 1 ((posts.length + ps - 1) / ps) := by simp [paginate]
    have hklt : k < max 1 ((posts.length + ps - 1) / ps) := by omega
    refine ⟨(posts.drop (k * ps)).take ps, ?_, ?_, ?_⟩
    · simp only [paginate, Nat.add_sub_cancel]
      rw [List.getElem?_map, List.getElem?_range hklt]
      rfl
    · simp only [Nat.add_sub_cancel, List.length_take, List.length_drop]
      have hmul : (k + 1) * ps = k * ps + ps := by rw [Nat.succ_mul]
      omega
    · intro j hj
      simp only [List.length_take, List.length_drop] at hj
      simp only [Nat.add_sub_cancel]
      rw [List.getElem?_take, if_pos (by omega), List.getElem?_drop]

theorem claim1_pagination_witness :
    1 ≤ 10 ∧ 1 ≤ 3 ∧ 3 ≤ (paginate (List.range 25) 10).length ∧
    ∃ page, (paginate (List.range 25) 10)[3 - 1]? = some page ∧
      page.length = min (List.range 25).length (3 * 10) - (3 - 1) * 10 ∧
      (∀ j, j < page.length → page[j]? = (List.range 25)[(3 - 1) * 10 + j]?) :=
  ⟨by decide, by decide, by decide,
    (claim1_pagination.1 Nat (List.range 25) 10 (by decide)).2 3 (by decide) (by decide)⟩

lemma fmParse_of_take3_ne {s : List Char} (h : s.take 3 ≠ ['-', '-', '-']) :
    parseFrontmatter s = ([], s) := by
  unfold parseFrontmatter fmMatch
  rw [if_neg h]

lemma fmTryAt_of_checks {l : List Char} {p : Nat}
    (hA : ¬(l.drop p).take 2 = ['\r', '\n'])
    (hB : ¬(l.drop p).take 1 = ['\n']) : fmTryAt l p = none := by
  unfold fmTryAt
  rw [if_neg hA, if_neg hB]

lemma fmOpen_of_checks (l : List Char) :
    ∀ p, (∀ q, q ≤ p → ¬(l.drop q).take 2 = ['\r', '\n'] ∧
      ¬(l.drop q).take 1 = ['\n']) → fmOpen l p = none := by
  intro p
  induction p with
  | zero =>
    intro h
    exact fmTryAt_of_checks (h 0 (le_refl 0)).1 (h 0 (le_refl 0)).2
  | succ p ih =>
    intro h
    show (match fmTryAt l (p + 1) with
      | some r => some r
      | none => fmOpen l p) = none
    rw [fmTryAt_of_checks (h (p + 1) (le_refl (p + 1))).1
      (h (p + 1) (le_refl (p + 1))).2]
    exact ih (fun q hq => h q (le_trans hq (Nat.le_succ p)))

lemma fmTryAt_of_no_nl {l : List Char} (h : '\n' ∉ l) (p : Nat) :
    fmTryAt l p = none := by
  have hA : ¬(l.drop p).take 2 = ['\r', '\n'] := fun heq =>
    h (List.mem_of_mem_drop (List.mem_of_mem_take
      (show '\n' ∈ (l.drop p).take 2 by rw [heq]; simp)))
  have hB : ¬(l.drop p).take 1 = ['\n'] := fun heq =>
    h (List.mem_of_mem_drop (List.mem_of_mem_take
      (show '\n' ∈ (l.drop p).take 1 by rw [heq]; simp)))
  exact fmTryAt_of_checks hA hB

lemma fmOpen_of_no_nl {l : List Char} (h : '\n' ∉ l) : ∀ p, fmOpen l p = none := by
  intro p
  induction p with
  | zero => exact fmTryAt_of_no_nl h 0
  | succ p ih =>
    show (match fmTryAt l (p + 1) with
      | some r => some r
      | none => fmOpen l p) = none
    rw [fmTryAt_of_no_nl h (p + 1)]
    exact ih

lemma fmParse_of_no_nl {s : List Char} (h : '\n' ∉ s) :
    parseFrontmatter s = ([], s) := by
  by_cases h3 : s.take 3 = ['-', '-', '-']
  · unfold parseFrontmatter fmMatch
    rw [if_pos h3, fmOpen_of_no_nl (fun hm => h (List.mem_of_mem_drop hm))]
  · exact fmParse_of_take3_ne h3

lemma fmParse_of_open_malformed {s : List Char}
    (h : s.take 3 = ['-', '-', '-'] →
      ∀ p, p ≤ wsRun (s.drop 3) →
        ¬((s.drop 3).drop p).take 2 = ['\r', '\n'] ∧
        ¬((s.drop 3).drop p).take 1 = ['\n']) :
    parseFrontmatter s = ([], s) := by
  by_cases h3 : s.take 3 = ['-', '-', '-']
  · unfold parseFrontmatter fmMatch
    rw [if_pos h3, fmOpen_of_checks (s.drop 3) (wsRun (s.drop 3))
      (fun q hq => h h3 q hq)]
  · exact fmParse_of_take3_ne h3

/-- Claim C4: an input whose head lacks a well-formed opening front-matter
delimiter parses to empty metadata with the body the whole input, byte for
byte, and parsing is total, it never fails.  The opening delimiter
`---\s*\r?\n` is absent or malformed exactly when the input does not start
with `---`, or no position inside the whitespace run after the dashes is
followed by a (CR)LF — the general first conjunct; the remaining conjuncts
are the common special cases (input not starting with `---`; input with no
newline at all). -/
theorem claim4_no_frontmatter :
    (∀ s : List Char,
      (s.take 3 = ['-', '-', '-'] →
        ∀ p, p ≤ wsRun (s.drop 3) →
          ¬((s.drop 3).drop p).take 2 = ['\r', '\n'] ∧
          ¬((s.drop 3).drop p).take 1 = ['\n']) →
      parseFrontmatter s = ([], s)) ∧
    (∀ s : List Char, s.take 3 ≠ ['-', '-', '-'] → parseFrontmatter s = ([], s)) ∧
    (∀ s : List Char, '\n' ∉ s → parseFrontmatter s = ([], s)) :=
  ⟨fun _ h => fmParse_of_open_malformed h, fun _ h => fmParse_of_take3_ne h,
    fun _ h => fmParse_of_no_nl h⟩

theorem claim4_no_frontmatter_witness :
    ((String.toList "---abc\ndef").take 3 = ['-', '-', '-'] →
      ∀ p, p ≤ wsRun ((String.toList "---abc\ndef").drop 3) →
        ¬(((String.toList "---abc\ndef").drop 3).drop p).take 2 =
          ['\r', '\n'] ∧
        ¬(((String.toList "---abc\ndef").drop 3).drop p).take 1 = ['\n']) ∧
    parseFrontmatter (String.toList "---abc\ndef") =
      ([], String.toList "---abc\ndef") ∧
    (String.toList "hello\nworld").take 3 ≠ ['-', '-', '-'] ∧
    parseFrontmatter (String.toList "hello\nworld") =
      ([], String.toList "hello\nworld") ∧
    '\n' ∉ String.toList "--- broken" ∧
    parseFrontmatter (String.toList "--- broken") =
      ([], String.toList "--- broken") := by
  have hmal : (String.toList "---abc\ndef").take 3 = ['-', '-', '-'] →
      ∀ p, p ≤ wsRun ((String.toList "---abc\ndef").drop 3) →
        ¬(((String.toList "---abc\ndef").drop 3).drop p).take 2 =
          ['\r', '\n'] ∧
        ¬(((String.toList "---abc\ndef").drop 3).drop p).take 1 = ['\n'] := by
    intro _ p hp
    have hw : wsRun ((String.toList "---abc\ndef").drop 3) = 0 := by decide
    rw [hw] at hp
    obtain rfl := Nat.le_zero.mp hp
    exact ⟨by decide, by decide⟩
  exact ⟨hmal, claim4_no_frontmatter.1 (String.toList "---abc\ndef") hmal,
    by decide, claim4_no_frontmatter.2.1 (String.toList "hello\nworld") (by decide),
    by decide, claim4_no_frontmatter.2.2 (String.toList "--- broken") (by decide)⟩

/-- Does a line starting with `---` occur after a newline, i.e. does `\n---`
occur as a sublist? -/
def hasNLDashes : List Char → Bool
  | [] => false
  | c :: rest =>
    if (c :: rest).take 4 = ['\n', '-', '-', '-'] then true else hasNLDashes rest

lemma hasNLDashes_cons (c : Char) (rest : List Char) :
    hasNLDashes (c :: rest) =
      if (c :: rest).take 4 = ['\n', '-', '-', '-'] then true
      else hasNLDashes rest := by
  rw [hasNLDashes]

lemma startsClose_of_mid (c : Char) (rest l : List Char) (hc : c ≠ '\r')
    (h4 : ¬(c :: rest).take 4 = ['\n', '-', '-', '-']) :
    startsClose (c :: (rest ++ '\n' :: '-' :: '-' :: '-' :: l)) = none := by
  have hA : ¬(c :: (rest ++ '\n' :: '-' :: '-' :: '-' :: l)).take 5 =
      ['\r', '\n', '-', '-', '-'] := by
    intro heq
    have heq' : c :: (rest ++ '\n' :: '-' :: '-' :: '-' :: l).take 4 =
        ['\r', '\n', '-', '-', '-'] := heq
    injection heq' with hch _
    exact hc hch
  have hB : ¬(c :: (rest ++ '\n' :: '-' :: '-' :: '-' :: l)).take 4 =
      ['\n', '-', '-', '-'] := by
    intro heq
    have heq' : c :: (rest ++ '\n' :: '-' :: '-' :: '-' :: l).take 3 =
        ['\n', '-', '-', '-'] := heq
    injection heq' with hch htl
    subst hch
    rcases rest with _ | ⟨b, _ | ⟨d, _ | ⟨e, r⟩⟩⟩
    · have h3 : ('\n' : Char) :: '-' :: '-' :: ([] : List Char) =
          ['-', '-', '-'] := htl
      injection h3 with hx _
      exact absurd hx (by decide)
    · have h3 : b :: ('\n' : Char) :: '-' :: ([] : List Char) =
          ['-', '-', '-'] := htl
      injection h3 with _ h3'
      injection h3' with hx _
      exact absurd hx (by decide)
    · have h3 : b :: d :: ('\n' : Char) :: ([] : List Char) = ['-', '-', '-'] := htl
      injection h3 with _ h3'
      injection h3' with _ h3''
      injection h3'' with hx _
      exact absurd hx (by decide)
    · have h3 : b :: d :: e :: ([] : List Char) = ['-', '-', '-'] := htl
      injection h3 with hb h3'
      injection h3' with hd h3''
      injection h3'' with he _
      subst hb
      subst hd
      subst he
      exact h4 rfl
  unfold startsClose
  rw [if_neg hA, if_neg hB]

lemma findClose_append (C l : List Char) (h1 : hasNLDashes C = false)
    (h2 : '\r' ∉ C) :
    findClose (C ++ '\n' :: '-' :: '-' :: '-' :: l) = some (C.length, 1) := by
  induction C with
  | nil =>
    have hA : ¬('\n' :: '-' :: '-' :: '-' :: l).take 5 =
        ['\r', '\n', '-', '-', '-'] := by
      intro heq
      have heq' : ('\n' : Char) :: '-' :: '-' :: '-' :: l.take 1 =
          ['\r', '\n', '-', '-', '-'] := heq
      injection heq' with hx _
      exact absurd hx (by decide)
    show findClose ('\n' :: '-' :: '-' :: '-' :: l) = some (0, 1)
    show (match startsClose ('\n' :: '-' :: '-' :: '-' :: l) with
      | some nl => some (0, nl)
      | none =>
        (findClose ('-' :: '-' :: '-' :: l)).map (fun p => (p.1 + 1, p.2))) =
      some (0, 1)
    unfold startsClose
    rw [if_neg hA,
      if_pos (show List.take 4 ('\n' :: '-' :: '-' :: '-' :: l) =
        ['\n', '-', '-', '-'] from rfl)]
  | cons c rest ih =>
    by_cases hc4 : (c :: rest).take 4 = ['\n', '-', '-', '-']
    · rw [hasNLDashes_cons, if_pos hc4] at h1
      exact absurd h1 (by simp)
    · have h1' : hasNLDashes rest = false := by
        rw [hasNLDashes_cons, if_neg hc4] at h1
        exact h1
      have hcr : c ≠ '\r' := by
        intro hcc
        exact h2 (by rw [hcc]; exact List.mem_cons_self '\r' rest)
      have h2' : '\r' ∉ rest := fun hm => h2 (List.mem_cons_of_mem c hm)
      have hns := startsClose_of_mid c rest l hcr hc4
      show findClose (c :: (rest ++ '\n' :: '-' :: '-' :: '-' :: l)) =
        some (rest.length + 1, 1)
      show (match startsClose (c :: (rest ++ '\n' :: '-' :: '-' :: '-' :: l)) with
        | some nl => some (0, nl)
        | none =>
          (findClose (rest ++ '\n' :: '-' :: '-' :: '-' :: l)).map
            (fun p => (p.1 + 1, p.2))) =
        some (rest.length + 1, 1)
      rw [hns, ih h1' h2']
      rfl

lemma fmOpen_block (c0 : Char) (C1 rest : List Char) (hws : jsWs c0 = false)
    (hcr : '\r' ∉ c0 :: C1) (hnd : hasNLDashes (c0 :: C1) = false)
    (hrest : wsRun rest = 0) :
    fmOpen ('\n' :: ((c0 :: C1) ++ '\n' :: '-' :: '-' :: '-' :: '\n' :: rest))
        (wsRun
          ('\n' :: ((c0 :: C1) ++ '\n' :: '-' :: '-' :: '-' :: '\n' :: rest))) =
      some (c0 :: C1, (c0 :: C1).length + 9) := by
  have hc0r : c0 ≠ '\r' := by
    intro h
    rw [h] at hws
    exact absurd hws (by decide)
  have hc0n : c0 ≠ '\n' := by
    intro h
    rw [h] at hws
    exact absurd hws (by decide)
  have hws1 :
      wsRun ('\n' :: ((c0 :: C1) ++ '\n' :: '-' :: '-' :: '-' :: '\n' :: rest)) =
        1 := by
    rw [wsRun, List.cons_append, wsRun, hws]
    simp [show jsWs '\n' = true from by decide]
  rw [hws1]
  have htry1 :
      fmTryAt ('\n' :: ((c0 :: C1) ++ '\n' :: '-' :: '-' :: '-' :: '\n' :: rest))
        1 = none := by
    have hA :
        ¬(('\n' :: ((c0 :: C1) ++ '\n' :: '-' :: '-' :: '-' :: '\n' :: rest)).drop
            1).take 2 = ['\r', '\n'] := by
      intro heq
      have heq' : c0 ::
          ((C1 ++ '\n' :: '-' :: '-' :: '-' :: '\n' :: rest).take 1) =
          ['\r', '\n'] := heq
      injection heq' with h1 _
      exact hc0r h1
    have hB :
        ¬(('\n' :: ((c0 :: C1) ++ '\n' :: '-' :: '-' :: '-' :: '\n' :: rest)).drop
            1).take 1 = ['\n'] := by
      intro heq
      have heq' : c0 :: ([] : List Char) = ['\n'] := heq
      injection heq' with h1 _
      exact hc0n h1
    unfold fmTryAt
    rw [if_neg hA, if_neg hB]
  have e1 :
      fmOpen ('\n' :: ((c0 :: C1) ++ '\n' :: '-' :: '-' :: '-' :: '\n' :: rest))
          1 =
        fmOpen ('\n' :: ((c0 :: C1) ++ '\n' :: '-' :: '-' :: '-' :: '\n' :: rest))
          0 := by
    show (match
        fmTryAt ('\n' :: ((c0 :: C1) ++ '\n' :: '-' :: '-' :: '-' :: '\n' :: rest))
          1 with
      | some r => some r
      | none =>
        fmOpen ('\n' :: ((c0 :: C1) ++ '\n' :: '-' :: '-' :: '-' :: '\n' :: rest))
          0) = _
    rw [htry1]
  rw [e1]
  show fmTryAt ('\n' :: ((c0 :: C1) ++ '\n' :: '-' :: '-' :: '-' :: '\n' :: rest))
      0 = some (c0 :: C1, (c0 :: C1).length + 9)
  have hA0 :
      ¬(('\n' :: ((c0 :: C1) ++ '\n' :: '-' :: '-' :: '-' :: '\n' :: rest)).drop
          0).take 2 = ['\r', '\n'] := by
    intro heq
    have heq' : '\n' ::
        (((c0 :: C1) ++ '\n' :: '-' :: '-' :: '-' :: '\n' :: rest).take 1) =
        ['\r', '\n'] := heq
    injection heq' with h1 _
    exact absurd h1 (by decide)
  have hB0 :
      (('\n' :: ((c0 :: C1) ++ '\n' :: '-' :: '-' :: '-' :: '\n' :: rest)).drop
          0).take 1 = ['\n'] := rfl
  unfold fmTryAt
  rw [if_neg hA0, if_pos hB0]
  have hfc :
      findClose
          (('\n' :: ((c0 :: C1) ++ '\n' :: '-' :: '-' :: '-' :: '\n' :: rest)).drop
            (0 + 1)) =
        some ((c0 :: C1).length, 1) := by
    show findClose ((c0 :: C1) ++ '\n' :: '-' :: '-' :: '-' :: ('\n' :: rest)) = _
    exact findClose_append (c0 :: C1) ('\n' :: rest) hnd hcr
  unfold fmFinish
  rw [hfc]
  have htake :
      (('\n' :: ((c0 :: C1) ++ '\n' :: '-' :: '-' :: '-' :: '\n' :: rest)).drop
          (0 + 1)).take (c0 :: C1).length = c0 :: C1 := by
    show ((c0 :: C1) ++ '\n' :: '-' :: '-' :: '-' :: '\n' :: rest).take
        (c0 :: C1).length = c0 :: C1
    exact List.take_left (c0 :: C1) ('\n' :: '-' :: '-' :: '-' :: '\n' :: rest)
  have hdrop :
      (('\n' :: ((c0 :: C1) ++ '\n' :: '-' :: '-' :: '-' :: '\n' :: rest)).drop
          (0 + 1)).drop ((c0 :: C1).length + 1 + 3) = '\n' :: rest := by
    show ((c0 :: C1) ++ '\n' :: '-' :: '-' :: '-' :: '\n' :: rest).drop
        ((c0 :: C1).length + 1 + 3) = '\n' :: rest
    rw [show (c0 :: C1).length + 1 + 3 = (c0 :: C1).length + 4 from rfl]
    exact List.drop_append 4
  have hwr : wsRun ('\n' :: rest) = 1 := by
    rw [wsRun, hrest]
    simp [show jsWs '\n' = true from by decide]
  show some
      ((('\n' :: ((c0 :: C1) ++ '\n' :: '-' :: '-' :: '-' :: '\n' :: rest)).drop
          (0 + 1)).take (c0 :: C1).length,
        3 + (0 + 1) + (c0 :: C1).length + 1 + 3 +
          wsRun
            ((('\n' ::
                ((c0 :: C1) ++ '\n' :: '-' :: '-' :: '-' :: '\n' :: rest)).drop
                (0 + 1)).drop ((c0 :: C1).length + 1 + 3))) =
    some (c0 :: C1, (c0 :: C1).length + 9)
  rw [htake, hdrop, hwr]
  have harith :
      3 + (0 + 1) + (c0 :: C1).length + 1 + 3 + 1 = (c0 :: C1).length + 9 := by
    omega
  rw [harith]

/-- Claim C6 (counterexample): an opening `---` line immediately followed by a
closing `---` line — the zero-key-value-line block the claim says is recognized
— is NOT matched: the regex requires a `\n` between the opening delimiter and
the closing `\n---`, so the parser returns the whole input unchanged instead of
stripping the block. -/
theorem claim6_counterexample :
    parseFrontmatter (String.toList "---\n---\nbody") =
      ([], String.toList "---\n---\nbody") ∧
    String.toList "---\n---\nbody" ≠ String.toList "body" := by
  decide

/-- Claim C6 (amended): a block whose delimiters enclose at least one line is
recognized: for any nonempty content `c0 :: C1` whose first character is not
whitespace, containing no CR and no `\n---` (so no content line opens with
`---`), and any remainder that does not start with whitespace (or is empty),
parsing `---\n` ++ content ++ `\n---\n` ++ rest returns the metadata parsed
from the content lines and exactly `rest` as the body — the delimiter lines,
the content and the closing delimiter's trailing newline are removed.  (A block
of zero lines, i.e. `---` immediately followed by `---`, is not recognized; see
the counterexample.) -/
theorem claim6_block (c0 : Char) (C1 rest : List Char) (hws : jsWs c0 = false)
    (hcr : '\r' ∉ c0 :: C1) (hnd : hasNLDashes (c0 :: C1) = false)
    (hrest : wsRun rest = 0) :
    parseFrontmatter ('-' :: '-' :: '-' :: '\n' ::
        ((c0 :: C1) ++ '\n' :: '-' :: '-' :: '-' :: '\n' :: rest)) =
      (fmData (c0 :: C1), rest) := by
  have hopen := fmOpen_block c0 C1 rest hws hcr hnd hrest
  unfold parseFrontmatter fmMatch
  rw [if_pos (show ('-' :: '-' :: '-' :: '\n' ::
      ((c0 :: C1) ++ '\n' :: '-' :: '-' :: '-' :: '\n' :: rest)).take 3 =
      ['-', '-', '-'] from rfl)]
  rw [show ('-' :: '-' :: '-' :: '\n' ::
      ((c0 :: C1) ++ '\n' :: '-' :: '-' :: '-' :: '\n' :: rest)).drop 3 =
      '\n' :: ((c0 :: C1) ++ '\n' :: '-' :: '-' :: '-' :: '\n' :: rest) from rfl]
  rw [hopen]
  show (fmData (c0 :: C1),
      ('-' :: '-' :: '-' :: '\n' ::
        ((c0 :: C1) ++ '\n' :: '-' :: '-' :: '-' :: '\n' :: rest)).drop
        ((c0 :: C1).length + 9)) = (fmData (c0 :: C1), rest)
  have hdrop9 :
      ('-' :: '-' :: '-' :: '\n' ::
          ((c0 :: C1) ++ '\n' :: '-' :: '-' :: '-' :: '\n' :: rest)).drop
        ((c0 :: C1).length + 9) = rest := by
    rw [show (c0 :: C1).length + 9 = 4 + ((c0 :: C1).length + 5) by omega]
    rw [← List.drop_drop]
    rw [show ('-' :: '-' :: '-' :: '\n' ::
        ((c0 :: C1) ++ '\n' :: '-' :: '-' :: '-' :: '\n' :: rest)).drop 4 =
        (c0 :: C1) ++ '\n' :: '-' :: '-' :: '-' :: '\n' :: rest from rfl]
    rw [show (c0 :: C1).length + 5 = (c0 :: C1).length + 5 from rfl]
    exact List.drop_append 5
  rw [hdrop9]

theorem claim6_block_witness :
    jsWs 't' = false ∧
    '\r' ∉ 't' :: String.toList "itle: hi" ∧
    hasNLDashes ('t' :: String.toList "itle: hi") = false ∧
    wsRun (String.toList "# Hello") = 0 ∧
    parseFrontmatter ('-' :: '-' :: '-' :: '\n' ::
        (('t' :: String.toList "itle: hi") ++
          '\n' :: '-' :: '-' :: '-' :: '\n' :: String.toList "# Hello")) =
      (fmData ('t' :: String.toList "itle: hi"), String.toList "# Hello") :=
  ⟨by decide, by decide, by decide, by decide,
    claim6_block 't' (String.toList "itle: hi") (String.toList "# Hello")
      (by decide) (by decide) (by decide) (by decide)⟩

/-- Claim C7 (counterexample): parsing is NOT idempotent — when the body left by
a first parse itself starts with a front-matter block, re-parsing strips it. -/
theorem claim7_counterexample :
    parseFrontmatter (String.toList "---\na: 1\n---\n---\nb: 2\n---\nx") =
      ([(String.toList "a", String.toList "1")],
        String.toList "---\nb: 2\n---\nx") ∧
    parseFrontmatter (String.toList "---\nb: 2\n---\nx") ≠
      ([], String.toList "---\nb: 2\n---\nx") := by
  decide

/-- Claim C7 (amended): re-parsing the body returned by a first parse yields no
front matter and leaves the body unchanged, provided the body does not itself
begin with `---` (a fresh front-matter block). -/
theorem claim7_reparse (raw : List Char) (m : FMap) (body : List Char)
    (h : parseFrontmatter raw = (m, body))
    (hb : body.take 3 ≠ ['-', '-', '-']) :
    parseFrontmatter body = ([], body) :=
  fmParse_of_take3_ne hb

theorem claim7_reparse_witness :
    parseFrontmatter (String.toList "---\na: 1\n---\nhello") =
      ([(String.toList "a", String.toList "1")], String.toList "hello") ∧
    (String.toList "hello").take 3 ≠ ['-', '-', '-'] ∧
    parseFrontmatter (String.toList "hello") = ([], String.toList "hello") :=
  ⟨by decide, by decide,
    claim7_reparse (String.toList "---\na: 1\n---\nhello")
      [(String.toList "a", String.toList "1")] (String.toList "hello")
      (by decide) (by decide)⟩

lemma filter_orderedInsert (x : SPost) (l : List SPost) (k : Int) :
    (List.orderedInsert postLE x l).filter (fun p => sortKey p == k) =
      if sortKey x = k then x :: l.filter (fun p => sortKey p == k)
      else l.filter (fun p => sortKey p == k) := by
  induction l with
  | nil =>
    by_cases hk : sortKey x = k
    · simp [List.orderedInsert, List.filter, hk]
    · have hx : (sortKey x == k) = false := by rw [beq_eq_false_iff_ne]; exact hk
      simp [List.orderedInsert, List.filter, hx, hk]
  | cons b t ih =>
    by_cases hxb : postLE x b
    · rw [List.orderedInsert, if_pos hxb]
      by_cases hk : sortKey x = k <;> simp [List.filter_cons, hk]
    · have hlt : sortKey x < sortKey b := lt_of_not_le hxb
      rw [List.orderedInsert, if_neg hxb]
      rw [List.filter_cons, List.filter_cons, ih]
      by_cases hk : sortKey x = k
      · have hbk : (sortKey b == k) = false := by
          rw [beq_eq_false_iff_ne]
          omega
        simp [hk, hbk]
      · simp only [hk, if_false]

lemma filter_sortPosts (l : List SPost) (k : Int) :
    (sortPosts l).filter (fun p => sortKey p == k) =
      l.filter (fun p => sortKey p == k) := by
  induction l with
  | nil => rfl
  | cons x t ih =>
    unfold sortPosts at ih ⊢
    show (List.orderedInsert postLE x (List.insertionSort postLE t)).filter _ = _
    rw [filter_orderedInsert, List.filter_cons]
    by_cases hk : sortKey x = k
    · simp [hk, ih]
    · simp only [hk, if_false]
      rw [ih]
      have : (sortKey x == k) = false := by rw [beq_eq_false_iff_ne]; exact hk
      simp [this]

lemma getElem?_linkPosts (l : List SPost) (i : Nat) (p : SPost)
    (h : l[i]? = some p) :
    (linkPosts l)[i]? =
      some ⟨p, l[i + 1]?, if i = 0 then none else l[i - 1]?⟩ := by
  unfold linkPosts
  rw [List.getElem?_map, List.getElem?_enum, h]
  rfl

/-- Claim C2 (counterexample): a null-timestamp post does NOT sort last in
general — its comparator key is epoch zero, so a post with a pre-epoch
timestamp (1969-12-31) sorts after it. -/
theorem claim2_counterexample :
    (sequencePosts [⟨"undated", none⟩, ⟨"older", some (-86400000)⟩]).map
        LinkedPost.post =
      [⟨"undated", none⟩, ⟨"older", some (-86400000)⟩] ∧
    (⟨"undated", none⟩ : SPost).createdAt = none ∧
    (⟨"older", some (-86400000)⟩ : SPost).createdAt ≠ none := by
  decide

/-- Claim C2 (amended): sequencing stably sorts by the comparator key — the
timestamp, with null treated as epoch zero — in descending order (so null posts
sort last among posts with nonnegative timestamps, tie with exact-epoch posts,
and precede pre-epoch posts; ties keep input order), then assigns for index i:
next = the post at i-1 (absent at i = 0) and prev = the post at i+1 (absent at
the end); the claim's concrete example behaves exactly as stated. -/
theorem claim2_sequencing :
    (∀ l : List SPost, (sortPosts l).Perm l) ∧
    (∀ l : List SPost, List.Sorted postLE (sortPosts l)) ∧
    (∀ (l : List SPost) (k : Int),
      (sortPosts l).filter (fun p => sortKey p == k) =
        l.filter (fun p => sortKey p == k)) ∧
    (∀ (l : List SPost) (i : Nat) (p : SPost), (sortPosts l)[i]? = some p →
      (sequencePosts l)[i]? =
        some ⟨p, (sortPosts l)[i + 1]?,
          if i = 0 then none else (sortPosts l)[i - 1]?⟩) ∧
    sequencePosts [⟨"t1", some 1672531200000⟩, ⟨"t2", some 1717200000000⟩,
        ⟨"t3", none⟩] =
      [⟨⟨"t2", some 1717200000000⟩, some ⟨"t1", some 1672531200000⟩, none⟩,
        ⟨⟨"t1", some 1672531200000⟩, some ⟨"t3", none⟩,
          some ⟨"t2", some 1717200000000⟩⟩,
        ⟨⟨"t3", none⟩, none, some ⟨"t1", some 1672531200000⟩⟩] :=
  ⟨fun l => List.perm_insertionSort postLE l,
    fun l => List.sorted_insertionSort postLE l,
    filter_sortPosts,
    fun l i p h => getElem?_linkPosts (sortPosts l) i p h,
    by decide⟩

theorem claim2_sequencing_witness :
    (sortPosts [⟨"undated", none⟩, ⟨"posted", some 5⟩])[0]? =
      some ⟨"posted", some 5⟩ ∧
    (sequencePosts [⟨"undated", none⟩, ⟨"posted", some 5⟩])[0]? =
      some ⟨⟨"posted", some 5⟩,
        (sortPosts [⟨"undated", none⟩, ⟨"posted", some 5⟩])[0 + 1]?,
        if 0 = 0 then none
        else (sortPosts [⟨"undated", none⟩, ⟨"posted", some 5⟩])[0 - 1]?⟩ :=
  ⟨by decide,
    claim2_sequencing.2.2.2.1 [⟨"undated", none⟩, ⟨"posted", some 5⟩] 0
      ⟨"posted", some 5⟩ (by decide)⟩

/-- Claim C5 (counterexample): the line `: v` contains a colon, so by the claim it
is split into key (empty after trimming) and value `v` and stored; the code's
`if (key)` guard instead skips it entirely. -/
theorem claim5_counterexample :
    fmLine [] (String.toList ": v") = [] ∧
    fmLine [] (String.toList ": v") ≠ [([], String.toList "v")] := by
  decide

/-- Claim C5 (amended): within a recognized block, blank lines, lines whose
trimmed form starts with `#`, lines without a colon, and lines whose key trims
to the empty string contribute nothing; every other line with a colon is split
at the first colon, key and value trimmed, and stored without coercion; a later
occurrence of the same key overwrites (in place) the earlier value, so lookup
returns the last occurrence. -/
theorem claim5_block_lines :
    (∀ (d : FMap) (line : List Char), jsTrim line = [] → fmLine d line = d) ∧
    (∀ (d : FMap) (line : List Char), (jsTrim line).head? = some '#' →
      fmLine d line = d) ∧
    (∀ (d : FMap) (line : List Char), idxOf ':' (jsTrim line) = none →
      fmLine d line = d) ∧
    (∀ (d : FMap) (line : List Char) (i : Nat), idxOf ':' (jsTrim line) = some i →
      jsTrim ((jsTrim line).take i) = [] → fmLine d line = d) ∧
    (∀ (d : FMap) (line : List Char) (i : Nat), idxOf ':' (jsTrim line) = some i →
      (jsTrim line).head? ≠ some '#' →
      jsTrim ((jsTrim line).take i) ≠ [] →
      fmLine d line =
        upsert (jsTrim ((jsTrim line).take i))
          (jsTrim ((jsTrim line).drop (i + 1))) d) ∧
    (∀ (d : FMap) (k v : List Char), jsLookup k (upsert k v d) = some v) ∧
    (∀ (d : FMap) (k k' v : List Char), k' ≠ k →
      jsLookup k (upsert k' v d) = jsLookup k d) ∧
    fmData (String.toList "a: 1\nb: x\na: 2") =
      [(String.toList "a", String.toList "2"),
        (String.toList "b", String.toList "x")] := by
  refine ⟨?_, ?_, ?_, ?_, ?_,
    fun d k v => jsLookup_upsert_self k v d,
    fun d k k' v h => jsLookup_upsert_ne h v d, by decide⟩
  · intro d line h
    simp [fmLine, h]
  · intro d line h
    have h0 : (jsTrim line).isEmpty = false := by
      cases hT : jsTrim line with
      | nil => rw [hT] at h; simp at h
      | cons a l => simp
    simp [fmLine, h0, h]
  · intro d line h
    simp only [fmLine]
    split
    · rfl
    · split
      · rfl
      · rw [h]
  · intro d line i hi hk
    simp only [fmLine]
    split
    · rfl
    · split
      · rfl
      · rw [hi]
        simp [hk]
  · intro d line i hi hhash hk
    have h0 : (jsTrim line).isEmpty = false := by
      cases hT : jsTrim line with
      | nil => rw [hT] at hi; simp [idxOf] at hi
      | cons a l => simp
    have hk0 : (jsTrim ((jsTrim line).take i)).isEmpty = false := by
      cases hT : jsTrim ((jsTrim line).take i) with
      | nil => exact absurd hT hk
      | cons a l => simp
    simp [fmLine, hi, h0, hk0, hhash]

theorem claim5_block_lines_witness :
    jsTrim (String.toList "   ") = [] ∧
    fmLine [(String.toList "a", String.toList "1")] (String.toList "   ") =
      [(String.toList "a", String.toList "1")] ∧
    idxOf ':' (jsTrim (String.toList " title :  My Post ")) = some 6 ∧
    (jsTrim (String.toList " title :  My Post ")).head? ≠ some '#' ∧
    jsTrim ((jsTrim (String.toList " title :  My Post ")).take 6) ≠ [] ∧
    fmLine [] (String.toList " title :  My Post ") =
      upsert (jsTrim ((jsTrim (String.toList " title :  My Post ")).take 6))
        (jsTrim ((jsTrim (String.toList " title :  My Post ")).drop (6 + 1))) [] :=
  ⟨by decide,
    claim5_block_lines.1 [(String.toList "a", String.toList "1")]
      (String.toList "   ") (by decide),
    by decide, by decide, by decide,
    claim5_block_lines.2.2.2.2.1 [] (String.toList " title :  My Post ") 6
      (by decide) (by decide) (by decide)⟩

/-- Claim C3 (counterexample): with no `created` metadata and an available
modification timestamp, the claimed policy yields the timestamp while the code
(the hand-rolled variant, whose resolver never receives a filesystem timestamp)
yields null. -/
theorem claim3_counterexample :
    resolveCreated demoJsDate [] = none ∧
    resolveDateClaim demoJsDate [] (some 999) = some 999 ∧
    resolveCreated demoJsDate [] ≠ resolveDateClaim demoJsDate [] (some 999) := by
  decide

/-- Claim C3 (amended): the hand-rolled resolver prefers the explicit `created`
metadata field parsed as a date; if the field is absent, empty, or unparseable
the result is null directly — the filesystem modification timestamp is never
consulted.  An unparseable string yields null, never an error. -/
theorem claim3_date_resolution :
    (∀ (jd : List Char → Option Int) (data : FMap),
      jsLookup (String.toList "created") data = none →
      resolveCreated jd data = none) ∧
    (∀ (jd : List Char → Option Int) (data : FMap) (v : List Char),
      jsLookup (String.toList "created") data = some v → v ≠ [] → jd v = none →
      resolveCreated jd data = none) ∧
    (∀ (jd : List Char → Option Int) (data : FMap) (v : List Char) (t : Int),
      jsLookup (String.toList "created") data = some v → v ≠ [] → jd v = some t →
      resolveCreated jd data = some t) ∧
    (∀ (jd : List Char → Option Int) (data : FMap),
      jsLookup (String.toList "created") data = some [] →
      resolveCreated jd data = none) := by
  refine ⟨?_, ?_, ?_, ?_⟩
  · intro jd data h
    unfold resolveCreated parseFrontmatterDate fmFieldText
    rw [h]
    rfl
  · intro jd data v h hv hjd
    have hv0 : v.isEmpty = false := by
      cases v with
      | nil => exact absurd rfl hv
      | cons a l => simp
    unfold resolveCreated parseFrontmatterDate fmFieldText
    rw [h, Option.getD_some, if_neg (by simp [hv0])]
    exact hjd
  · intro jd data v t h hv hjd
    have hv0 : v.isEmpty = false := by
      cases v with
      | nil => exact absurd rfl hv
      | cons a l => simp
    unfold resolveCreated parseFrontmatterDate fmFieldText
    rw [h, Option.getD_some, if_neg (by simp [hv0])]
    exact hjd
  · intro jd data h
    unfold resolveCreated parseFrontmatterDate fmFieldText
    rw [h]
    rfl

theorem claim3_date_resolution_witness :
    jsLookup (String.toList "created") ([] : FMap) = none ∧
    resolveCreated demoJsDate [] = none ∧
    jsLookup (String.toList "created")
        [(String.toList "created", String.toList "not a date")] =
      some (String.toList "not a date") ∧
    String.toList "not a date" ≠ [] ∧
    demoJsDate (String.toList "not a date") = none ∧
    resolveCreated demoJsDate
        [(String.toList "created", String.toList "not a date")] = none ∧
    demoJsDate (String.toList "2024-06-01") = some 1717200000000 ∧
    resolveCreated demoJsDate
        [(String.toList "created", String.toList "2024-06-01")] =
      some 1717200000000 ∧
    jsLookup (String.toList "created")
        [(String.toList "created", String.toList "")] = some [] ∧
    resolveCreated demoJsDate [(String.toList "created", String.toList "")] =
      none :=
  ⟨by decide, claim3_date_resolution.1 demoJsDate [] (by decide),
    by decide, by decide, by decide,
    claim3_date_resolution.2.1 demoJsDate
      [(String.toList "created", String.toList "not a date")]
      (String.toList "not a date") (by decide) (by decide) (by decide),
    by decide,
    claim3_date_resolution.2.2.1 demoJsDate
      [(String.toList "created", String.toList "2024-06-01")]
      (String.toList "2024-06-01") 1717200000000 (by decide) (by decide)
      (by decide),
    by decide,
    claim3_date_resolution.2.2.2 demoJsDate
      [(String.toList "created", String.toList "")] (by decide)⟩

/-- Claim C10: in the gray-matter variant the front-matter object is spread over
the derived fields, so any metadata key — including `slug`, `title`, `date`,
`dateFormatted`, `html` — ends up with its raw metadata value in the record. -/
theorem claim10_spread_overwrites
    (jd : List Char → Option Int) (fmtDate : Option Int → List Char)
    (render : List Char → List Char) (now : Int) (file : List Char)
    (data : JObj) (body : List Char) (k : List Char) (v : JVal)
    (hnd : (data.map Prod.fst).Nodup) (h : jsLookup k data = some v) :
    jsLookup k (buildPost jd fmtDate render now file data body) = some v := by
  unfold buildPost
  rw [jsLookup_spread data _ k hnd, h]

theorem claim10_spread_overwrites_witness :
    (([(String.toList "date", JVal.vStr (String.toList "2024-06-01"))] :
        JObj).map Prod.fst).Nodup ∧
    jsLookup (String.toList "date")
        [(String.toList "date", JVal.vStr (String.toList "2024-06-01"))] =
      some (JVal.vStr (String.toList "2024-06-01")) ∧
    jsLookup (String.toList "date")
        (buildPost demoJsDate (fun _ => []) id 0 (String.toList "post.md")
          [(String.toList "date", JVal.vStr (String.toList "2024-06-01"))] []) =
      some (JVal.vStr (String.toList "2024-06-01")) :=
  ⟨by decide, by decide,
    claim10_spread_overwrites demoJsDate (fun _ => []) id 0
      (String.toList "post.md")
      [(String.toList "date", JVal.vStr (String.toList "2024-06-01"))] []
      (String.toList "date") (JVal.vStr (String.toList "2024-06-01"))
      (by decide) (by decide)⟩

/-- Claim C8 (counterexample): a document of the hand-rolled variant whose front
matter explicitly sets `title: My Title` still gets the file-name title `post`,
not the metadata value. -/
theorem claim8_counterexample :
    jsLookup (String.toList "title")
        (parseFrontmatter
          (String.toList "---\ntitle: My Title\n---\nbody")).1 =
      some (String.toList "My Title") ∧
    (p000Post demoJsDate id (String.toList "post.md")
        (String.toList "---\ntitle: My Title\n---\nbody")).title =
      String.toList "post" ∧
    String.toList "post" ≠ String.toList "My Title" := by
  decide

/-- Claim C8 (amended): in the gray-matter variant the final record title equals
the `title` metadata value whenever the key is present (the spread restores it
even when it is falsy) and defaults to the file name with the first `.md`
removed when the key is absent; in the hand-rolled variant the title is always
the file name with the first `.md` removed and title metadata is ignored. -/
theorem claim8_title :
    (∀ (jd : List Char → Option Int) (fmtDate : Option Int → List Char)
      (render : List Char → List Char) (now : Int) (file : List Char)
      (data : JObj) (body : List Char), (data.map Prod.fst).Nodup →
      jsLookup (String.toList "title")
          (buildPost jd fmtDate render now file data body) =
        match jsLookup (String.toList "title") data with
        | some v => some v
        | none => some (JVal.vStr (replaceFirstMd file))) ∧
    (∀ (jd : List Char → Option Int) (render : List Char → List Char)
      (file content : List Char),
      (p000Post jd render file content).title = replaceFirstMd file) := by
  constructor
  · intro jd fmtDate render now file data body hnd
    unfold buildPost
    rw [jsLookup_spread data _ _ hnd]
    cases h : jsLookup (String.toList "title") data with
    | some v => rfl
    | none =>
      simp [jsLookup, h]
  · intro jd render file content
    rfl

theorem claim8_title_witness :
    (([(String.toList "title", JVal.vStr [])] : JObj).map Prod.fst).Nodup ∧
    jsLookup (String.toList "title")
        (buildPost demoJsDate (fun _ => []) id 0 (String.toList "post.md")
          [(String.toList "title", JVal.vStr [])] []) =
      some (JVal.vStr []) ∧
    (p000Post demoJsDate id (String.toList "note.md") (String.toList "body")).title =
      replaceFirstMd (String.toList "note.md") := by
  refine ⟨by decide, ?_, claim8_title.2 demoJsDate id (String.toList "note.md")
    (String.toList "body")⟩
  have h := claim8_title.1 demoJsDate (fun _ => []) id 0 (String.toList "post.md")
    [(String.toList "title", JVal.vStr [])] [] (by decide)
  rw [h]
  decide

/-- Claim C9 (counterexample): the slug of `a.mdb.md` — a file name that ends in
`.md` but also contains `.md` earlier — is `ab.md` under the code's
`file.replace(".md", "")`, not the claimed extension-stripped `a.mdb`. -/
theorem claim9_counterexample :
    replaceFirstMd (String.toList "a.mdb.md") = String.toList "ab.md" ∧
    String.toList "ab.md" ≠ String.toList "a.mdb" ∧
    (String.toList "a.mdb.md").drop 5 = String.toList ".md" := by
  decide

/-- Claim C9 (amended): the slug is the file name with the FIRST occurrence of
`.md` removed; whenever the stem contains no `.md`, this equals stripping the
trailing extension.  The condition is sufficient, not necessary: the two
results can also coincide accidentally for stems that do contain `.md`, as in
`a.md.md`, whose slug `a.md` equals the trailing-stripped stem. -/
theorem claim9_slug :
    (∀ stem : List Char, hasMd stem = false →
      replaceFirstMd (stem ++ String.toList ".md") = stem) ∧
    hasMd (String.toList "a.md") = true ∧
    replaceFirstMd (String.toList "a.md" ++ String.toList ".md") =
      String.toList "a.md" :=
  ⟨fun stem h => replaceFirstMd_append_md stem h, by decide, by decide⟩

theorem claim9_slug_witness :
    hasMd (String.toList "hello") = false ∧
    replaceFirstMd (String.toList "hello" ++ String.toList ".md") =
      String.toList "hello" :=
  ⟨by decide, claim9_slug.1 (String.toList "hello") (by decide)⟩

-- Concrete checks of the regex model against hand-traced JavaScript behaviour.
example : parseFrontmatter (String.toList "hello\nworld") =
    ([], String.toList "hello\nworld") := by decide
example :
    parseFrontmatter (String.toList "---\ntitle: hi\n---\nbody") =
      ([(String.toList "title", String.toList "hi")], String.toList "body") := by
  decide
example : parseFrontmatter (String.toList "---\n---\nbody") =
    ([], String.toList "---\n---\nbody") := by decide
example : parseFrontmatter (String.toList "---\n\n---\nbody") =
    ([], String.toList "body") := by decide
example :
    parseFrontmatter (String.toList "---\na: 1\n---\n---\nb: 2\n---\nx") =
      ([(String.toList "a", String.toList "1")],
        String.toList "---\nb: 2\n---\nx") := by decide

end StaticBlog
